import Mathlib

/-!
Verification of the incremental re-compilation orchestrator
(`LspProjectCompiler` in src/compiler-core/src/language_server/compiler.rs).

The Rust code is shallowly embedded: the orchestrator state (the two
snapshot mappings and the warning sink) is an explicit state record, the
external Full-Project Compiler is a parameter recording the outcomes of its
calls, and `compile`, `take_warnings`, `get_source` and the constructor are
Lean functions that transcribe the Rust control flow, additionally
producing a trace of lock / phase events so that sequencing facts are
provable.
-/

set_option autoImplicit false

namespace GleamLsp

/-- Module names are strings (EcoString in the source). -/
abbrev ModuleName := String

/-- Warnings are opaque values for this development; only their identity
matters to the claims. -/
structure Warning where
  id : Nat
deriving Repr, DecidableEq

/-- Errors are opaque values; `compile` propagates them unchanged. -/
structure Error where
  id : Nat
deriving Repr, DecidableEq

/-- Modelled from the spec: the Source-Position Index (`LineNumbers` in
`line_numbers.rs`, a file not under src/). Per section 4.2 it is built once
per module from the full source text; we record the byte offsets at which
lines start, which is determined by the source text alone. -/
structure LineNumbers where
  line_starts : List Nat
deriving Repr, DecidableEq

/-- Byte offsets one past each newline character of the source. -/
def lineStartsAux : List Char → Nat → List Nat
  | [], _ => []
  | c :: cs, off =>
    let off2 := off + c.utf8Size
    if c = '\n' then off2 :: lineStartsAux cs off2 else lineStartsAux cs off2

/-- Modelled from the spec: `LineNumbers::new` builds the index from the
source text (line 135 of compiler.rs calls it on `module.code`). -/
def LineNumbers.new (code : String) : LineNumbers :=
  ⟨0 :: lineStartsAux code.data 0⟩

/-- The fields of `build::Module` that the orchestrator reads: name,
originating file path and raw source text (compiler.rs lines 133-139). -/
structure Module where
  name : ModuleName
  input_path : String
  code : String
deriving Repr, DecidableEq

/-- `ModuleSourceInformation` (compiler.rs lines 246-254). -/
structure ModuleSourceInformation where
  path : String
  line_numbers : LineNumbers
deriving Repr, DecidableEq

/-- The root package returned by `compile_root_package` (the orchestrator
only reads its module list). -/
structure Package where
  modules : List Module
deriving Repr, DecidableEq

/-- A `HashMap` is modelled as an association list where insertion prepends
and lookup returns the first (most recent) binding, so a later insert for
the same key shadows earlier ones exactly as `HashMap::insert` replaces. -/
def hmGet {α : Type} (k : ModuleName) : List (ModuleName × α) → Option α
  | [] => none
  | (k2, v) :: rest => if k2 = k then some v else hmGet k rest

/-- The mutable state of `LspProjectCompiler`: the two snapshot mappings
and the warning sink contents (compiler.rs lines 27-40). -/
structure LspState where
  modules : List (ModuleName × Module)
  sources : List (ModuleName × ModuleSourceInformation)
  warnings : List Warning
deriving Repr, DecidableEq

/-- Modelled from the spec: `VectorWarningEmitterIO::take` (warning.rs, not
under src/) atomically returns every accumulated warning and clears the
buffer (section 4.1, take_warnings contract). -/
def vectorWarningEmitterTake (w : List Warning) : List Warning × List Warning :=
  (w, [])

/-- `take_warnings` (compiler.rs lines 237-239): delegates to the warning
sink take operation. -/
def take_warnings (st : LspState) : List Warning × LspState :=
  let (ws, rest) := vectorWarningEmitterTake st.warnings
  (ws, { st with warnings := rest })

/-- `get_source` (compiler.rs lines 241-243): a lookup in the sources map. -/
def get_source (st : LspState) (module : ModuleName) : Option ModuleSourceInformation :=
  hmGet module st.sources

/-- The outcomes of the external `ProjectCompiler` calls made by one
`compile()` invocation, together with the warnings each phase appends to
the shared sink. The inner compiler is an external collaborator (section 6
of the spec); a behaviour value records what its calls return. -/
structure ProjectCompilerBehavior where
  check_gleam_version : Except Error Unit
  compile_dependencies : Except Error (List Module)
  dep_warnings : List Warning
  compile_root_package : Except Error Package
  root_warnings : List Warning

/-- Lock and phase events, so that sequencing and lock scoping are provable
facts about the embedding. -/
inductive Event where
  | lockAcquire
  | lockRelease
  | versionCheck
  | depCompile
  | drainWarnings
  | rootCompile
  | deleteDirectory
deriving Repr, DecidableEq

/-- The `for module in package.modules` loop of compile (compiler.rs lines
133-140): for each root module, build its source information from its code,
append its path to the result list and insert into both snapshot maps. -/
def record_modules : List Module → LspState → List String → List String × LspState
  | [], st, acc => (acc, st)
  | m :: rest, st, acc =>
    let source : ModuleSourceInformation :=
      { path := m.input_path, line_numbers := LineNumbers.new m.code }
    record_modules rest
      { st with
        sources := (m.name, source) :: st.sources,
        modules := (m.name, m) :: st.modules }
      (acc ++ [m.input_path])

/-- `compile` (compiler.rs lines 98-143). Control flow: acquire the lock,
check the cache version, compile dependencies, drain and discard the sink,
compile the root package; on root failure return the error with the
snapshot untouched; on success record every root module and return the
dependency paths followed by the root module paths. The scoped lock guard
releases on every exit path. -/
def compile (pc : ProjectCompilerBehavior) (st : LspState) :
    Except Error (List String) × LspState × List Event :=
  match pc.check_gleam_version with
  | .error e => (.error e, st, [.lockAcquire, .versionCheck, .lockRelease])
  | .ok _ =>
    match pc.compile_dependencies with
    | .error e =>
      (.error e, { st with warnings := st.warnings ++ pc.dep_warnings },
        [.lockAcquire, .versionCheck, .depCompile, .lockRelease])
    | .ok compiled_dependencies =>
      let st1 : LspState := { st with warnings := st.warnings ++ pc.dep_warnings }
      let (_, st2) := take_warnings st1
      let st3 : LspState := { st2 with warnings := st2.warnings ++ pc.root_warnings }
      match pc.compile_root_package with
      | .error e =>
        (.error e, st3,
          [.lockAcquire, .versionCheck, .depCompile, .drainWarnings,
            .rootCompile, .lockRelease])
      | .ok package =>
        let compiled_modules := compiled_dependencies.map (fun m => m.input_path)
        let (paths, st4) := record_modules package.modules st3 compiled_modules
        (.ok paths, st4,
          [.lockAcquire, .versionCheck, .depCompile, .drainWarnings,
            .rootCompile, .lockRelease])

/-- The on-disk state the constructor touches: the set of existing build
directories. -/
structure Filesystem where
  dirs : List String
deriving Repr, DecidableEq

/-- Modelled from the spec: `delete_directory` of the I/O capability
(section 6: idempotent on a missing path) — removes the directory when
present and succeeds either way. -/
def delete_directory (fs : Filesystem) (path : String) : Except Error Filesystem :=
  .ok ⟨fs.dirs.filter (fun d => d ≠ path)⟩

/-- `new` (compiler.rs lines 46-96), restricted to its observable effects:
under a scoped lock acquisition it deletes the build directory of the root
package for the Lsp mode and target, then initializes the snapshot maps and
the warning sink to empty. `build_dir` stands for
`paths.build_directory_for_package(Mode::Lsp, target, name)`. -/
def new (fs : Filesystem) (build_dir : String) :
    Except Error LspState × Filesystem × List Event :=
  match delete_directory fs build_dir with
  | .error e => (.error e, fs, [.lockAcquire, .deleteDirectory, .lockRelease])
  | .ok fs2 =>
    (.ok { modules := [], sources := [], warnings := [] }, fs2,
      [.lockAcquire, .deleteDirectory, .lockRelease])

/-! ### Concrete fixtures used by witnesses and counterexamples -/

/-- A dependency module, as returned by `compile_dependencies`. -/
def depModuleA : Module :=
  { name := "gleam_stdlib",
    input_path := "deps/gleam_stdlib/src/gleam_stdlib.gleam",
    code := "pub fn reverse() \x7b todo \x7d" }

/-- A root-package module, as returned by `compile_root_package`. -/
def rootModuleA : Module :=
  { name := "app", input_path := "src/app.gleam", code := "pub fn main() \x7b 0 \x7d" }

/-- A fully successful run: one dependency module, one root module, one
warning emitted by each phase. -/
def exBehavior : ProjectCompilerBehavior :=
  { check_gleam_version := .ok (),
    compile_dependencies := .ok [depModuleA],
    dep_warnings := [{ id := 1 }],
    compile_root_package := .ok { modules := [rootModuleA] },
    root_warnings := [{ id := 2 }] }

/-- A second successful run with different module names. -/
def depModuleB : Module :=
  { name := "dep_util", input_path := "deps/dep_util/src/dep_util.gleam",
    code := "pub fn util() \x7b 1 \x7d" }

def rootModuleB : Module :=
  { name := "app_main", input_path := "src/app_main.gleam",
    code := "pub fn main2() \x7b 2 \x7d" }

def exBehaviorB : ProjectCompilerBehavior :=
  { check_gleam_version := .ok (),
    compile_dependencies := .ok [depModuleB],
    dep_warnings := [],
    compile_root_package := .ok { modules := [rootModuleB] },
    root_warnings := [] }

/-- A run whose root-package compile fails after the dependency phase
succeeded and emitted a warning. -/
def failRootBehavior : ProjectCompilerBehavior :=
  { check_gleam_version := .ok (),
    compile_dependencies := .ok [depModuleA],
    dep_warnings := [{ id := 3 }],
    compile_root_package := .error { id := 7 },
    root_warnings := [{ id := 4 }] }

/-- A run whose compiler-version compatibility check fails. -/
def failVersionBehavior : ProjectCompilerBehavior :=
  { check_gleam_version := .error { id := 9 },
    compile_dependencies := .ok [depModuleA],
    dep_warnings := [{ id := 5 }],
    compile_root_package := .ok { modules := [rootModuleA] },
    root_warnings := [] }

/-- The freshly constructed orchestrator state. -/
def emptyState : LspState := { modules := [], sources := [], warnings := [] }

/-- A module recorded by an earlier successful compile. -/
def legacyModule : Module :=
  { name := "legacy", input_path := "src/legacy.gleam", code := "pub fn old() \x7b 3 \x7d" }

/-- A snapshot holding the entry of an earlier compile, with a warning left
in the sink. -/
def legacyState : LspState :=
  { modules := [("legacy", legacyModule)],
    sources := [("legacy",
      { path := "src/legacy.gleam",
        line_numbers := LineNumbers.new legacyModule.code })],
    warnings := [{ id := 6 }] }

/-! ### Helper lemmas about the association-list map and the recording loop -/

theorem hmGet_cons {α : Type} (k k2 : ModuleName) (v : α) (l : List (ModuleName × α)) :
    hmGet k ((k2, v) :: l) = if k2 = k then some v else hmGet k l := rfl

theorem hmGet_append_some {α : Type} (k : ModuleName) (l1 l2 : List (ModuleName × α))
    (v : α) (h : hmGet k l1 = some v) : hmGet k (l1 ++ l2) = some v := by
  induction l1 with
  | nil => simp [hmGet] at h
  | cons p rest ih =>
    obtain ⟨k2, v2⟩ := p
    rw [hmGet_cons] at h
    rw [List.cons_append, hmGet_cons]
    by_cases hk : k2 = k
    · simpa [hk] using h
    · rw [if_neg hk] at h ⊢
      exact ih h

theorem hmGet_append_none {α : Type} (k : ModuleName) (l1 l2 : List (ModuleName × α))
    (h : hmGet k l1 = none) : hmGet k (l1 ++ l2) = hmGet k l2 := by
  induction l1 with
  | nil => rfl
  | cons p rest ih =>
    obtain ⟨k2, v2⟩ := p
    rw [hmGet_cons] at h
    rw [List.cons_append, hmGet_cons]
    by_cases hk : k2 = k
    · simp [hk] at h
    · rw [if_neg hk] at h ⊢
      exact ih h

/-- Lookup in the reversed per-call insertions equals mapping `f` over the
last module of the list whose name is the key: the Rust loop inserts in
list order, and a later `HashMap::insert` replaces an earlier one. -/
theorem hmGet_reverse_map {α : Type} (ms : List Module) (k : ModuleName) (f : Module → α) :
    hmGet k ((ms.map (fun m => (m.name, f m))).reverse)
      = (ms.reverse.find? (fun m => m.name == k)).map f := by
  induction ms with
  | nil => rfl
  | cons m rest ih =>
    simp only [List.map_cons, List.reverse_cons]
    rcases h : rest.reverse.find? (fun m => m.name == k) with _ | m2
    · have h1 : hmGet k ((rest.map (fun m => (m.name, f m))).reverse) = none := by
        rw [ih, h]; rfl
      rw [hmGet_append_none k _ _ h1, List.find?_append, h]
      by_cases hk : m.name = k
      · simp [hmGet, List.find?, hk]
      · have hb : (m.name == k) = false := by simp [hk]
        simp [hmGet, List.find?, hk, hb]
    · have h1 : hmGet k ((rest.map (fun m => (m.name, f m))).reverse) = some (f m2) := by
        rw [ih, h]; rfl
      rw [hmGet_append_some k _ _ _ h1, List.find?_append, h]
      rfl

theorem hmGet_eq_none {α : Type} (k : ModuleName) (l : List (ModuleName × α))
    (h : ∀ p ∈ l, p.1 ≠ k) : hmGet k l = none := by
  induction l with
  | nil => rfl
  | cons p rest ih =>
    obtain ⟨k2, v⟩ := p
    rw [hmGet_cons, if_neg (h (k2, v) (by simp))]
    exact ih (fun q hq => h q (List.mem_cons_of_mem _ hq))

theorem hmGet_reverse_map_id (ms : List Module) (k : ModuleName) :
    hmGet k ((ms.map (fun m => (m.name, m))).reverse)
      = ms.reverse.find? (fun m => m.name == k) := by
  have h := hmGet_reverse_map ms k (fun m => m)
  simpa using h

theorem hmGet_reverse_map_source (ms : List Module) (k : ModuleName) :
    hmGet k ((ms.map (fun m =>
        (m.name, ModuleSourceInformation.mk m.input_path (LineNumbers.new m.code)))).reverse)
      = (ms.reverse.find? (fun m => m.name == k)).map
          (fun m => ModuleSourceInformation.mk m.input_path (LineNumbers.new m.code)) :=
  hmGet_reverse_map ms k _

/-- Full characterisation of the recording loop: returned paths are the
accumulator followed by the root module paths in order, both maps receive
exactly the per-module insertions (most recent first), and the warning sink
is untouched. -/
theorem record_modules_spec (ms : List Module) (st : LspState) (acc : List String) :
    (record_modules ms st acc).1 = acc ++ ms.map (fun m => m.input_path) ∧
    (record_modules ms st acc).2.modules
      = (ms.map (fun m => (m.name, m))).reverse ++ st.modules ∧
    (record_modules ms st acc).2.sources
      = (ms.map (fun m =>
          (m.name, ModuleSourceInformation.mk m.input_path (LineNumbers.new m.code)))).reverse
        ++ st.sources ∧
    (record_modules ms st acc).2.warnings = st.warnings := by
  induction ms generalizing st acc with
  | nil => simp [record_modules]
  | cons m rest ih =>
    have h := ih
      { st with
        sources := (m.name, ⟨m.input_path, LineNumbers.new m.code⟩) :: st.sources,
        modules := (m.name, m) :: st.modules }
      (acc ++ [m.input_path])
    simp only [record_modules]
    refine ⟨?_, ?_, ?_, ?_⟩
    · rw [h.1]; simp
    · rw [h.2.1]; simp
    · rw [h.2.2.1]; simp
    · rw [h.2.2.2]

/-- Shared characterisation of a fully successful `compile` call: the
returned paths, both snapshot maps, the warning sink and the event trace. -/
theorem compile_ok_spec (pc : ProjectCompilerBehavior) (st : LspState)
    (deps : List Module) (pkg : Package)
    (hchk : pc.check_gleam_version = .ok ())
    (hdeps : pc.compile_dependencies = .ok deps)
    (hroot : pc.compile_root_package = .ok pkg) :
    (compile pc st).1 = .ok (deps.map (fun m => m.input_path)
        ++ pkg.modules.map (fun m => m.input_path)) ∧
    (compile pc st).2.1.modules
      = (pkg.modules.map (fun m => (m.name, m))).reverse ++ st.modules ∧
    (compile pc st).2.1.sources
      = (pkg.modules.map (fun m =>
          (m.name, ModuleSourceInformation.mk m.input_path (LineNumbers.new m.code)))).reverse
        ++ st.sources ∧
    (compile pc st).2.1.warnings = pc.root_warnings ∧
    (compile pc st).2.2 = [Event.lockAcquire, Event.versionCheck, Event.depCompile,
        Event.drainWarnings, Event.rootCompile, Event.lockRelease] := by
  have h := record_modules_spec pkg.modules
    { st with warnings := pc.root_warnings } (deps.map (fun m => m.input_path))
  unfold compile
  rw [hchk, hdeps, hroot]
  simp only [take_warnings, vectorWarningEmitterTake, List.nil_append]
  exact ⟨by rw [h.1], by rw [h.2.1], by rw [h.2.2.1], by rw [h.2.2.2], trivial⟩

/-! ### Claim theorems -/

/-- Claim C1, counterexample: in a successful `compile` call whose
dependency phase returns the module named "gleam_stdlib", the call succeeds
and reports that module as compiled (its path heads the returned list), yet
neither snapshot mapping ends the call with an entry for it — dependency
modules are never inserted, contradicting the claim that every module
compiled in the call ends with entries in both mappings. -/
theorem C1_counterexample :
    (compile exBehavior emptyState).1
      = .ok ["deps/gleam_stdlib/src/gleam_stdlib.gleam", "src/app.gleam"] ∧
    hmGet "gleam_stdlib" (compile exBehavior emptyState).2.1.modules = none ∧
    hmGet "gleam_stdlib" (compile exBehavior emptyState).2.1.sources = none :=
  ⟨rfl, rfl, rfl⟩

/-- Claim C1, amended: for every successful `compile` call, every
root-package module (not the dependency modules) ends the call with an
entry in both snapshot mappings, the `ModuleSourceInformation` holding the
Source-Position Index computed from that module's source text, and the
entry found is the one inserted by this call, replacing any earlier entry
for the same name. -/
theorem C1_root_modules_recorded (pc : ProjectCompilerBehavior) (st : LspState)
    (deps : List Module) (pkg : Package)
    (hchk : pc.check_gleam_version = .ok ())
    (hdeps : pc.compile_dependencies = .ok deps)
    (hroot : pc.compile_root_package = .ok pkg)
    (m : Module) (hm : m ∈ pkg.modules) :
    ∃ m2, m2 ∈ pkg.modules ∧ m2.name = m.name ∧
      hmGet m.name (compile pc st).2.1.modules = some m2 ∧
      hmGet m.name (compile pc st).2.1.sources
        = some (ModuleSourceInformation.mk m2.input_path (LineNumbers.new m2.code)) := by
  obtain ⟨-, hmod, hsrc, -, -⟩ := compile_ok_spec pc st deps pkg hchk hdeps hroot
  have hex : (pkg.modules.reverse.find? (fun m2 => m2.name == m.name)).isSome :=
    List.find?_isSome.mpr ⟨m, List.mem_reverse.mpr hm, by simp⟩
  obtain ⟨m2, hfind⟩ := Option.isSome_iff_exists.mp hex
  have hm2mem : m2 ∈ pkg.modules := List.mem_reverse.mp (List.mem_of_find?_eq_some hfind)
  have hm2name : m2.name = m.name := by
    have h2 := List.find?_some hfind
    simpa using h2
  refine ⟨m2, hm2mem, hm2name, ?_, ?_⟩
  · rw [hmod]
    apply hmGet_append_some
    rw [hmGet_reverse_map_id, hfind]
  · rw [hsrc]
    apply hmGet_append_some
    rw [hmGet_reverse_map_source, hfind]
    rfl

/-- Witness for the amended C1 at a concrete successful run. -/
theorem C1_root_modules_recorded_witness :
    ∃ m2, m2 ∈ ({ modules := [rootModuleA] } : Package).modules ∧
      m2.name = rootModuleA.name ∧
      hmGet rootModuleA.name (compile exBehavior emptyState).2.1.modules = some m2 ∧
      hmGet rootModuleA.name (compile exBehavior emptyState).2.1.sources
        = some (ModuleSourceInformation.mk m2.input_path (LineNumbers.new m2.code)) :=
  C1_root_modules_recorded exBehavior emptyState [depModuleA] { modules := [rootModuleA] }
    rfl rfl rfl rootModuleA (by simp)

/-- Claim C2: when the root-package compile fails, `compile` returns that
error and leaves both snapshot mappings exactly as they were before the
call. -/
theorem C2_root_failure_snapshot_unchanged (pc : ProjectCompilerBehavior) (st : LspState)
    (deps : List Module) (e : Error)
    (hchk : pc.check_gleam_version = .ok ())
    (hdeps : pc.compile_dependencies = .ok deps)
    (hroot : pc.compile_root_package = .error e) :
    (compile pc st).1 = .error e ∧
    (compile pc st).2.1.modules = st.modules ∧
    (compile pc st).2.1.sources = st.sources := by
  unfold compile
  rw [hchk, hdeps, hroot]
  exact ⟨rfl, rfl, rfl⟩

/-- Witness for C2 at a concrete failing run starting from a non-empty
snapshot. -/
theorem C2_root_failure_snapshot_unchanged_witness :
    (compile failRootBehavior legacyState).1 = .error { id := 7 } ∧
    (compile failRootBehavior legacyState).2.1.modules = legacyState.modules ∧
    (compile failRootBehavior legacyState).2.1.sources = legacyState.sources :=
  C2_root_failure_snapshot_unchanged failRootBehavior legacyState [depModuleA] { id := 7 }
    rfl rfl rfl

/-- Claim C3: a successful `compile` call leaves the snapshot entries of
every module name it did not compile (neither as dependency nor as root
module) unchanged — earlier entries persist and are never deleted. -/
theorem C3_uncompiled_names_unchanged (pc : ProjectCompilerBehavior) (st : LspState)
    (deps : List Module) (pkg : Package)
    (hchk : pc.check_gleam_version = .ok ())
    (hdeps : pc.compile_dependencies = .ok deps)
    (hroot : pc.compile_root_package = .ok pkg)
    (k : ModuleName)
    (hk : ∀ m ∈ deps ++ pkg.modules, m.name ≠ k) :
    hmGet k (compile pc st).2.1.modules = hmGet k st.modules ∧
    hmGet k (compile pc st).2.1.sources = hmGet k st.sources := by
  obtain ⟨-, hmod, hsrc, -, -⟩ := compile_ok_spec pc st deps pkg hchk hdeps hroot
  have hnone : pkg.modules.reverse.find? (fun m2 => m2.name == k) = none := by
    rw [List.find?_eq_none]
    intro x hx
    have hxk : x.name ≠ k :=
      hk x (List.mem_append_right deps (List.mem_reverse.mp hx))
    simp [hxk]
  constructor
  · rw [hmod]
    rw [hmGet_append_none _ _ _ (by rw [hmGet_reverse_map_id, hnone])]
  · rw [hsrc]
    rw [hmGet_append_none _ _ _ (by rw [hmGet_reverse_map_source, hnone]; rfl)]

/-- Witness for C3: the entry of an earlier compile survives a successful
call that compiles other modules. -/
theorem C3_uncompiled_names_unchanged_witness :
    hmGet "legacy" (compile exBehavior legacyState).2.1.modules
      = hmGet "legacy" legacyState.modules ∧
    hmGet "legacy" (compile exBehavior legacyState).2.1.sources
      = hmGet "legacy" legacyState.sources :=
  C3_uncompiled_names_unchanged exBehavior legacyState [depModuleA]
    { modules := [rootModuleA] } rfl rfl rfl "legacy" (by decide)

/-- Claim C4: once the dependency phase succeeds, the sink is drained
before the root compile starts (see the trace order), so the sink after the
call holds exactly the root-phase warnings — any later `take_warnings`
returns no dependency-phase warning. -/
theorem C4_dep_warnings_discarded (pc : ProjectCompilerBehavior) (st : LspState)
    (deps : List Module)
    (hchk : pc.check_gleam_version = .ok ())
    (hdeps : pc.compile_dependencies = .ok deps) :
    (compile pc st).2.1.warnings = pc.root_warnings ∧
    (take_warnings (compile pc st).2.1).1 = pc.root_warnings ∧
    (compile pc st).2.2 = [Event.lockAcquire, Event.versionCheck, Event.depCompile,
        Event.drainWarnings, Event.rootCompile, Event.lockRelease] := by
  cases hroot : pc.compile_root_package with
  | error e =>
    unfold compile
    rw [hchk, hdeps, hroot]
    refine ⟨?_, ?_, rfl⟩ <;> simp [take_warnings, vectorWarningEmitterTake]
  | ok pkg =>
    obtain ⟨-, -, -, hw, htr⟩ := compile_ok_spec pc st deps pkg hchk hdeps hroot
    exact ⟨hw, by rw [show (take_warnings (compile pc st).2.1).1
      = (compile pc st).2.1.warnings from rfl, hw], htr⟩

/-- Witness for C4 at a concrete run where the dependency phase emitted a
warning and the sink started non-empty. -/
theorem C4_dep_warnings_discarded_witness :
    (compile exBehavior legacyState).2.1.warnings = exBehavior.root_warnings ∧
    (take_warnings (compile exBehavior legacyState).2.1).1 = exBehavior.root_warnings ∧
    (compile exBehavior legacyState).2.2 = [Event.lockAcquire, Event.versionCheck,
        Event.depCompile, Event.drainWarnings, Event.rootCompile, Event.lockRelease] :=
  C4_dep_warnings_discarded exBehavior legacyState [depModuleA] rfl rfl

/-- Claim C5: `take_warnings` returns everything accumulated in the sink,
touches nothing else, and leaves the sink empty, so a second consecutive
call returns the empty list. -/
theorem C5_take_warnings_drains (st : LspState) :
    (take_warnings st).1 = st.warnings ∧
    (take_warnings st).2.modules = st.modules ∧
    (take_warnings st).2.sources = st.sources ∧
    (take_warnings st).2.warnings = [] ∧
    (take_warnings (take_warnings st).2).1 = [] :=
  ⟨rfl, rfl, rfl, rfl, rfl⟩

/-- Claim C6: when the version compatibility check fails, `compile` returns
that error with the state untouched, and the trace shows the lock scope
closing with no dependency compile, no sink drain and no root compile. -/
theorem C6_version_mismatch_short_circuits (pc : ProjectCompilerBehavior) (st : LspState)
    (e : Error) (hchk : pc.check_gleam_version = .error e) :
    compile pc st = (.error e, st, [Event.lockAcquire, Event.versionCheck,
        Event.lockRelease]) ∧
    Event.depCompile ∉ (compile pc st).2.2 ∧
    Event.drainWarnings ∉ (compile pc st).2.2 ∧
    Event.rootCompile ∉ (compile pc st).2.2 := by
  have h : compile pc st = (.error e, st, [Event.lockAcquire, Event.versionCheck,
      Event.lockRelease]) := by
    unfold compile
    rw [hchk]
  refine ⟨h, ?_, ?_, ?_⟩ <;> rw [h] <;> simp

/-- Witness for C6 at a concrete run with a failing version check. -/
theorem C6_version_mismatch_short_circuits_witness :
    compile failVersionBehavior legacyState = (.error { id := 9 }, legacyState,
      [Event.lockAcquire, Event.versionCheck, Event.lockRelease]) ∧
    Event.depCompile ∉ (compile failVersionBehavior legacyState).2.2 ∧
    Event.drainWarnings ∉ (compile failVersionBehavior legacyState).2.2 ∧
    Event.rootCompile ∉ (compile failVersionBehavior legacyState).2.2 :=
  C6_version_mismatch_short_circuits failVersionBehavior legacyState { id := 9 } rfl

/-- Claim C7: a successful `compile` returns the dependency module paths in
the order the inner compiler reported them, followed by the root-package
module paths. -/
theorem C7_returned_paths (pc : ProjectCompilerBehavior) (st : LspState)
    (deps : List Module) (pkg : Package)
    (hchk : pc.check_gleam_version = .ok ())
    (hdeps : pc.compile_dependencies = .ok deps)
    (hroot : pc.compile_root_package = .ok pkg) :
    (compile pc st).1 = .ok (deps.map (fun m => m.input_path)
        ++ pkg.modules.map (fun m => m.input_path)) :=
  (compile_ok_spec pc st deps pkg hchk hdeps hroot).1

/-- Witness for C7 at a concrete successful run. -/
theorem C7_returned_paths_witness :
    (compile exBehaviorB emptyState).1 = .ok ([depModuleB].map (fun m => m.input_path)
        ++ [rootModuleB].map (fun m => m.input_path)) :=
  C7_returned_paths exBehaviorB emptyState [depModuleB] { modules := [rootModuleB] }
    rfl rfl rfl

/-- Claim C8: construction acquires the lock only around the
cache-invalidation step (the whole event trace of `new` is acquire, delete,
release), succeeds whether or not the build directory existed, initializes
an empty snapshot, and leaves the directory absent in every case. -/
theorem C8_new_invalidates_cache (fs : Filesystem) (build_dir : String) :
    (new fs build_dir).1 = .ok { modules := [], sources := [], warnings := [] } ∧
    build_dir ∉ (new fs build_dir).2.1.dirs ∧
    (new fs build_dir).2.2 = [Event.lockAcquire, Event.deleteDirectory,
      Event.lockRelease] := by
  refine ⟨rfl, ?_, rfl⟩
  unfold new delete_directory
  simp [List.mem_filter]

/-- Claim C9, counterexample: after a successful `compile` call that
compiled the dependency module named "dep_util" (its path is reported in
the result), `get_source` still returns `none` for it — `get_source` does
not cover dependency modules, contradicting the claim that it returns the
index for every module ever successfully compiled, dependency or root. -/
theorem C9_counterexample :
    (compile exBehaviorB emptyState).1
      = .ok ["deps/dep_util/src/dep_util.gleam", "src/app_main.gleam"] ∧
    get_source (compile exBehaviorB emptyState).2.1 "dep_util" = none :=
  ⟨rfl, rfl⟩

/-- Claim C9, amended: `get_source` is a total lookup: after a successful
`compile`, it returns the source information (path and index built from the
module's text) for every root-package module name of that call, and it
returns `none` — not an error — for any name with no entry; being a plain
function of the state it mutates nothing. -/
theorem C9_get_source_contract (pc : ProjectCompilerBehavior) (st : LspState)
    (deps : List Module) (pkg : Package)
    (hchk : pc.check_gleam_version = .ok ())
    (hdeps : pc.compile_dependencies = .ok deps)
    (hroot : pc.compile_root_package = .ok pkg)
    (m : Module) (hm : m ∈ pkg.modules) :
    (∃ m2, m2 ∈ pkg.modules ∧ m2.name = m.name ∧
      get_source (compile pc st).2.1 m.name
        = some (ModuleSourceInformation.mk m2.input_path (LineNumbers.new m2.code))) ∧
    (∀ k : ModuleName, (∀ p ∈ (compile pc st).2.1.sources, p.1 ≠ k) →
      get_source (compile pc st).2.1 k = none) := by
  obtain ⟨-, -, hsrc, -, -⟩ := compile_ok_spec pc st deps pkg hchk hdeps hroot
  constructor
  · have hex : (pkg.modules.reverse.find? (fun m2 => m2.name == m.name)).isSome :=
      List.find?_isSome.mpr ⟨m, List.mem_reverse.mpr hm, by simp⟩
    obtain ⟨m2, hfind⟩ := Option.isSome_iff_exists.mp hex
    have hm2mem : m2 ∈ pkg.modules := List.mem_reverse.mp (List.mem_of_find?_eq_some hfind)
    have hm2name : m2.name = m.name := by
      have h2 := List.find?_some hfind
      simpa using h2
    refine ⟨m2, hm2mem, hm2name, ?_⟩
    rw [get_source, hsrc]
    apply hmGet_append_some
    rw [hmGet_reverse_map_source, hfind]
    rfl
  · intro k hk
    exact hmGet_eq_none k _ hk

/-- Witness for the amended C9 at a concrete successful run. -/
theorem C9_get_source_contract_witness :
    (∃ m2, m2 ∈ ({ modules := [rootModuleB] } : Package).modules ∧
      m2.name = rootModuleB.name ∧
      get_source (compile exBehaviorB emptyState).2.1 rootModuleB.name
        = some (ModuleSourceInformation.mk m2.input_path (LineNumbers.new m2.code))) ∧
    (∀ k : ModuleName, (∀ p ∈ (compile exBehaviorB emptyState).2.1.sources, p.1 ≠ k) →
      get_source (compile exBehaviorB emptyState).2.1 k = none) :=
  C9_get_source_contract exBehaviorB emptyState [depModuleB] { modules := [rootModuleB] }
    rfl rfl rfl rootModuleB (by simp)

/-- Claim C10: a `compile` call that fails in the root phase has already
drained and discarded the dependency-phase warnings (and anything older in
the sink): afterwards the sink holds exactly the root-phase warnings, which
is what the next `take_warnings` returns. -/
theorem C10_failed_compile_loses_dep_warnings (pc : ProjectCompilerBehavior)
    (st : LspState) (deps : List Module) (e : Error)
    (hchk : pc.check_gleam_version = .ok ())
    (hdeps : pc.compile_dependencies = .ok deps)
    (hroot : pc.compile_root_package = .error e) :
    (compile pc st).1 = .error e ∧
    (compile pc st).2.1.warnings = pc.root_warnings ∧
    (take_warnings (compile pc st).2.1).1 = pc.root_warnings := by
  unfold compile
  rw [hchk, hdeps, hroot]
  refine ⟨rfl, ?_, ?_⟩ <;> simp [take_warnings, vectorWarningEmitterTake]

/-- Witness for C10: a failed root compile whose dependency phase emitted
warning 3; afterwards only root-phase warning 4 can be taken. -/
theorem C10_failed_compile_loses_dep_warnings_witness :
    (compile failRootBehavior legacyState).1 = .error { id := 7 } ∧
    (compile failRootBehavior legacyState).2.1.warnings = failRootBehavior.root_warnings ∧
    (take_warnings (compile failRootBehavior legacyState).2.1).1
      = failRootBehavior.root_warnings :=
  C10_failed_compile_loses_dep_warnings failRootBehavior legacyState [depModuleA]
    { id := 7 } rfl rfl rfl

end GleamLsp
